import Mathlib

/-!
Verification of the quiz backend (`app/game_logic.py`, `app/models.py`,
`app/socket_manager.py`) against its natural-language specification.

Python floats are modelled as rationals (`ℚ`), Python dicts as association
lists with unique keys (`dictInsert` replaces, `dictRemove` deletes all
occurrences of a key, so keys stay unique), Python list indexing (which
supports negative indices and raises `IndexError` out of range) as `pyIndex`.
The module-level dict `players` maps a connection id to the *same object*
stored in the session roster; since a `Player`'s `session_id` and `name`
never change and names are unique within a roster (a duplicate name is
treated as a reconnection by `join_session`), the binding is modelled as a
reference `PRef = (session_id, name)` resolved through the roster.
Randomness (`random.shuffle`) and wall-clock time are passed in as oracle
arguments.  An unhandled Python exception inside a handler is modelled by
`Except.error`.
-/

namespace Quiz

/-! ### Dictionary and list helpers (Python dict / list semantics) -/

/-- `d[k]` lookup returning `none` when the key is absent. -/
def dictGet {κ α : Type} [DecidableEq κ] (k : κ) : List (κ × α) → Option α
  | [] => none
  | (k', v) :: rest => if k' = k then some v else dictGet k rest

/-- `d[k] = v`: replaces the existing binding for `k` or appends a new one. -/
def dictInsert {κ α : Type} [DecidableEq κ] (k : κ) (v : α) : List (κ × α) → List (κ × α)
  | [] => [(k, v)]
  | (k', v') :: rest => if k' = k then (k, v) :: rest else (k', v') :: dictInsert k v rest

/-- `del d[k]`: removes every binding for `k` (keys are unique, so at most one). -/
def dictRemove {κ α : Type} [DecidableEq κ] (k : κ) (m : List (κ × α)) : List (κ × α) :=
  m.filter (fun p => decide (p.1 ≠ k))

/-- Python list indexing `l[i]`: negative indices count from the end;
`none` models an `IndexError`. -/
def pyIndex {α : Type} (l : List α) (i : Int) : Option α :=
  if i < 0 then
    let j := i + l.length
    if j < 0 then none else l.get? j.toNat
  else
    l.get? i.toNat

/-! ### `app/game_logic.py` -/

/-- `calculate_score(is_correct, time_taken, time_limit)` from
`app/game_logic.py` (defaults `time_limit=10`); floats as rationals. -/
def calculate_score (is_correct : Bool) (time_taken : ℚ) (time_limit : ℚ) : ℚ :=
  if time_taken > time_limit then 0
  else
    let speed_factor := 1 - time_taken / time_limit
    if is_correct then 100 + 900 * speed_factor
    else -(500 * speed_factor)

/-! ### `app/models.py` -/

/-- `Question` (`app/models.py`). -/
structure Question where
  question : String
  answers : List String
  correct_answer : Nat
  question_type : String := "text"
  image : Option String := none
deriving Repr, DecidableEq

/-- `Answer` (`app/models.py`): one player's submission for one question. -/
structure Answer where
  question_index : Int
  answer_index : Int
  time_taken : ℚ
  points_earned : ℚ
deriving Repr, DecidableEq

/-- `Player` (`app/models.py`). -/
structure Player where
  sid : String
  name : String
  session_id : String
  total_score : ℚ := 0
  answers : List Answer := []
  connected : Bool := true
deriving Repr, DecidableEq

/-- One entry of `session.question_shuffles` (built in `next_question`,
`app/socket_manager.py` lines 278-282). -/
structure ShuffleData where
  answers : List String
  original_to_shuffled : List Nat
  correct_index : Nat
deriving Repr, DecidableEq

/-- `GameSession` (`app/models.py`); `question_shuffles` maps a question
index to its shuffle record. -/
structure GameSession where
  session_id : String
  host_sid : String
  quiz_name : Option String := none
  players : List Player := []
  questions : List Question
  current_question_index : Int := -1
  state : String := "waiting"
  question_start_time : Option ℚ := none
  question_shuffles : List (Int × ShuffleData) := []
deriving Repr, DecidableEq

/-! ### The answer shuffler (`next_question`, lines 264-282)

`random.shuffle(shuffled_indices)` is modelled by passing the resulting
permutation `shuffled_indices` in as an oracle argument; the theorems
assume it is a permutation of `range n`. -/

/-- Lines 264-282 of `app/socket_manager.py`: apply the permutation
`shuffled_indices` to the answers and remap the correct index by
`shuffled_indices.index(question.correct_answer)`. -/
def shuffle_answers (original_answers : List String) (correct_answer : Nat)
    (shuffled_indices : List Nat) : ShuffleData :=
  let shuffled_answers := shuffled_indices.map (fun i => original_answers.getD i "")
  let new_correct_index := shuffled_indices.indexOf correct_answer
  { answers := shuffled_answers
    original_to_shuffled := shuffled_indices
    correct_index := new_correct_index }

/-! ### Events and server state (`app/socket_manager.py`) -/

/-- Leaderboard entry as built by `get_leaderboard` (lines 455-459). -/
structure LBEntry where
  name : String
  score : ℚ
  correct_answers : Nat
deriving Repr, DecidableEq

/-- Outbound socket events.  Payload fields only carry what the handlers
put in them; the per-player `results` list of `question_results` is elided. -/
inductive Event where
  | session_created (session_id : String) (total_questions : Nat)
  | error (message : String)
  | joined_session (player_name : String) (session_id : String)
      (reconnected : Bool) (game_state : String) (total_score : Option ℚ)
  | player_joined (player_name : String) (total_players : Nat)
  | game_started
  | new_question (question_number : Int) (total_questions : Nat)
      (question : String) (answers : List String) (time_limit : Nat)
      (already_answered : Bool) (question_type : String) (image_url : Option String)
  | timer_update (remaining : Nat)
  | time_up
  | question_results (correct_answer : Int) (leaderboard : List LBEntry)
  | answer_submitted (points_earned : ℚ)
  | player_answered (player_name : String)
  | game_over (leaderboard : List LBEntry)
deriving Repr, DecidableEq

/-- An emission: target room or connection id, and the event. -/
abbrev Emit := String × Event

/-- Reference stored in the module-level `players` dict: the bound player's
session and display name (both immutable), resolved through the roster. -/
structure PRef where
  session_id : String
  name : String
deriving Repr, DecidableEq

/-- The module-level mutable state of `app/socket_manager.py`:
`sessions`, `players` (sid → Player) and `player_sessions`. -/
structure ServerState where
  sessions : List (String × GameSession)
  players : List (String × PRef)
  player_sessions : List (String × String)
deriving Repr, DecidableEq

/-- Python truthiness of an optional string (`None` and `''` are falsy). -/
def truthy : Option String → Bool
  | none => false
  | some s => !s.isEmpty

/-- Image URL construction (lines 160-162 / 285-287):
`f"/api/quizzes/{session.quiz_name}/images/{question.image}"` when the
question is an image question and both parts are truthy. -/
def build_image_url (question : Question) (quiz_name : Option String) : Option String :=
  if question.question_type == "image" && truthy question.image && truthy quiz_name then
    some ("/api/quizzes/" ++ quiz_name.getD "" ++ "/images/" ++ question.image.getD "")
  else none

/-- `session.players` lookup by display name (first match), as in the
loop at lines 118-122. -/
def find_player_by_name (ps : List Player) (name : String) : Option Player :=
  ps.find? (fun p => p.name == name)

/-- In-place mutation of the (unique) roster player with the given name. -/
def update_player_in_roster (name : String) (f : Player → Player) : List Player → List Player
  | [] => []
  | p :: rest =>
    if p.name == name then f p :: rest
    else p :: update_player_in_roster name f rest

/-! ### Handlers (`app/socket_manager.py`) -/

/-- Correct-index resolution used by `get_leaderboard` (lines 450-451):
the cached shuffle record, falling back to the question's original
`correct_answer`; `none` models the `IndexError` of the fallback. -/
def leaderboard_correct_index (session : GameSession) (qi : Int) : Option Int :=
  match dictGet qi session.question_shuffles with
  | some sd => some (sd.correct_index : Int)
  | none => (pyIndex session.questions qi).map (fun q => (q.correct_answer : Int))

/-- One player's leaderboard entry (lines 446-459). -/
def lb_entry (session : GameSession) (player : Player) : LBEntry :=
  { name := player.name
    score := player.total_score
    correct_answers :=
      (player.answers.filter (fun a =>
        leaderboard_correct_index session a.question_index == some a.answer_index)).length }

/-- Comparator of `leaderboard.sort(key=lambda x: x['score'], reverse=True)`:
descending by score; Python's sort is stable, as is `List.mergeSort`. -/
def lb_le (a b : LBEntry) : Bool := decide (b.score ≤ a.score)

/-- `get_leaderboard` (lines 443-462). -/
def get_leaderboard (session : GameSession) : List LBEntry :=
  (session.players.map (lb_entry session)).mergeSort lb_le

/-- `create_session` (lines 39-87).  Loading the quiz file is I/O; the
loaded question list is passed in as the `questions` oracle. -/
def create_session (st : ServerState) (sid : String) (session_id : String)
    (quiz_name : Option String) (questions : List Question) :
    ServerState × List Emit :=
  if questions.isEmpty then
    (st, [(sid, .error "No questions found in quiz")])
  else
    let session : GameSession :=
      { session_id := session_id
        host_sid := sid
        quiz_name := quiz_name
        players := []
        questions := questions
        current_question_index := -1
        state := "waiting"
        question_start_time := none
        question_shuffles := [] }
    ({ st with sessions := dictInsert session_id session st.sessions },
     [(sid, .session_created session_id questions.length)])

/-- `join_session` (lines 90-203).  `session_id?` is `data.get('session_id')`
(`none` when the field is missing, which then fails the `in sessions` test
exactly like an unknown code); the display name is assumed present. -/
def join_session (st : ServerState) (sid : String) (session_id? : Option String)
    (player_name : String) : ServerState × List Emit :=
  match session_id?.bind (fun c => (dictGet c st.sessions).map (fun s => (c, s))) with
  | none => (st, [(sid, .error "Session not found")])
  | some (session_id, session) =>
    match find_player_by_name session.players player_name with
    | some existing_player =>
      -- reconnection branch (lines 124-175)
      let old_sid := existing_player.sid
      let players1 := dictRemove old_sid st.players
      let session' := { session with
        players := update_player_in_roster player_name
          (fun p => { p with sid := sid, connected := true }) session.players }
      let st' := { st with
        sessions := dictInsert session_id session' st.sessions
        players := dictInsert sid ⟨session_id, player_name⟩ players1 }
      let joined : Emit := (sid, .joined_session player_name session_id true
        session.state (some existing_player.total_score))
      if session.state == "playing" && session.current_question_index ≥ 0 then
        match pyIndex session.questions session.current_question_index with
        | none => (st', [joined])  -- IndexError aborts the handler after the mutations
        | some question =>
          let already_answered := existing_player.answers.any
            (fun a => a.question_index == session.current_question_index)
          let shuffled_answers :=
            match dictGet session.current_question_index session.question_shuffles with
            | some sd => sd.answers
            | none => question.answers
          (st', [joined,
            (sid, .new_question (session.current_question_index + 1)
              session.questions.length question.question shuffled_answers 25
              already_answered question.question_type
              (build_image_url question session.quiz_name))])
      else
        (st', [joined])
    | none =>
      -- new-player branch (lines 176-203)
      if session.state != "waiting" then
        (st, [(sid, .error "Game already started")])
      else
        let player : Player :=
          { sid := sid, name := player_name, session_id := session_id
            total_score := 0, answers := [], connected := true }
        let session' := { session with players := session.players ++ [player] }
        let st' := { st with
          sessions := dictInsert session_id session' st.sessions
          players := dictInsert sid ⟨session_id, player_name⟩ st.players
          player_sessions := dictInsert player_name session_id st.player_sessions }
        (st', [(sid, .joined_session player_name session_id false session.state none),
               (session_id, .player_joined player_name
                 (session'.players.filter (fun p => p.connected)).length)])

/-- `end_game` (lines 418-440). -/
def end_game (st : ServerState) (session_id : String) : ServerState × List Emit :=
  match dictGet session_id st.sessions with
  | none => (st, [])
  | some session =>
    let session' := { session with state := "finished" }
    ({ st with sessions := dictInsert session_id session' st.sessions },
     [(session_id, .game_over (get_leaderboard session'))])

/-- `next_question` (lines 242-304).  The shuffle permutation and the clock
reading are oracle arguments.  The third component is the countdown the
handler then starts: `countdown_timer(session_id, 25)` on the question
path, nothing on the end-of-quiz path. -/
def next_question (st : ServerState) (session_id : String) (perm : List Nat)
    (now : ℚ) : ServerState × List Emit × Option (String × Nat) :=
  match dictGet session_id st.sessions with
  | none => (st, [], none)
  | some session =>
    let idx := session.current_question_index + 1
    let session1 := { session with current_question_index := idx }
    let st1 := { st with sessions := dictInsert session_id session1 st.sessions }
    if (session1.questions.length : Int) ≤ idx then
      let r := end_game st1 session_id
      (r.1, r.2, none)
    else
      match pyIndex session1.questions idx with
      | none => (st1, [], none)  -- IndexError (unreachable when -1 ≤ index)
      | some question =>
        let sd := shuffle_answers question.answers question.correct_answer perm
        let session2 := { session1 with
          question_start_time := some now
          question_shuffles := dictInsert idx sd session1.question_shuffles }
        let st2 := { st with sessions := dictInsert session_id session2 st.sessions }
        (st2,
         [(session_id, .new_question (idx + 1) session2.questions.length
            question.question sd.answers 25 false question.question_type
            (build_image_url question session.quiz_name))],
         some (session_id, 25))

/-- `start_game` (lines 206-239) up to and including the `game_started`
broadcast; the third component is the session whose first advancement
(`next_question`) the handler then awaits, at which moment the stored
state is already `'playing'`. -/
def start_game_core (st : ServerState) (sid : String) (session_id? : Option String) :
    ServerState × List Emit × Option String :=
  match session_id?.bind (fun c => (dictGet c st.sessions).map (fun s => (c, s))) with
  | none => (st, [(sid, .error "Session not found")], none)
  | some (session_id, session) =>
    if session.host_sid != sid then
      (st, [(sid, .error "Only host can start the game")], none)
    else
      let session' := { session with state := "playing" }
      ({ st with sessions := dictInsert session_id session' st.sessions },
       [(session_id, .game_started)], some session_id)

/-- The whole `start_game` handler: validation and `state = 'playing'`,
then the first `next_question`. -/
def start_game (st : ServerState) (sid : String) (session_id? : Option String)
    (perm : List Nat) (now : ℚ) : ServerState × List Emit :=
  let r := start_game_core st sid session_id?
  match r.2.2 with
  | none => (r.1, r.2.1)
  | some code =>
    let r2 := next_question r.1 code perm now
    (r2.1, r.2.1 ++ r2.2.1)

/-- `show_question_results` (lines 324-364): reads the cached shuffle
record (falling back to the original correct index), emits the results
event; mutates nothing.  The per-player `results` list is elided from the
event payload. -/
def show_question_results (st : ServerState) (session_id : String) :
    ServerState × List Emit :=
  match dictGet session_id st.sessions with
  | none => (st, [])
  | some session =>
    match pyIndex session.questions session.current_question_index with
    | none => (st, [])  -- IndexError aborts the handler
    | some question =>
      let correct_index_shuffled : Int :=
        match dictGet session.current_question_index session.question_shuffles with
        | some sd => (sd.correct_index : Int)
        | none => (question.correct_answer : Int)
      (st, [(session_id, .question_results correct_index_shuffled
        (get_leaderboard session))])

/-- `submit_answer` (lines 367-415).  `answer_index?` is
`data.get('answer_index')`; `now` is the clock oracle.  `Except.error`
models an unhandled Python exception aborting the handler:
`KeyError` from `sessions[player.session_id]`, `TypeError` from
`current_time - None` when no question was ever presented,
`IndexError` from the fallback `session.questions[...]`, and pydantic's
`ValidationError` from `Answer(answer_index=None)`. -/
def submit_answer (st : ServerState) (sid : String) (answer_index? : Option Int)
    (now : ℚ) : Except String (ServerState × List Emit) :=
  match dictGet sid st.players with
  | none => .ok (st, [])  -- silent return (line 370-372)
  | some ref =>
    match dictGet ref.session_id st.sessions with
    | none => .error "KeyError"
    | some session =>
      match find_player_by_name session.players ref.name with
      | none => .error "stale player binding"  -- unreachable: the dict aliases a roster object
      | some player =>
        if player.answers.any (fun a => a.question_index == session.current_question_index) then
          .ok (st, [(sid, .error "Already answered")])
        else
          match session.question_start_time with
          | none => .error "TypeError"  -- current_time - None (line 387)
          | some t0 =>
            let time_taken := now - t0
            let correct? : Option Int :=
              match dictGet session.current_question_index session.question_shuffles with
              | some sd => some (sd.correct_index : Int)
              | none => (pyIndex session.questions session.current_question_index).map
                  (fun q => (q.correct_answer : Int))
            match correct? with
            | none => .error "IndexError"
            | some correct_index_shuffled =>
              let is_correct := answer_index? == some correct_index_shuffled
              let points := calculate_score is_correct time_taken 10
              match answer_index? with
              | none => .error "ValidationError"  -- Answer(answer_index=None)
              | some answer_index =>
                let answer : Answer :=
                  { question_index := session.current_question_index
                    answer_index := answer_index
                    time_taken := time_taken
                    points_earned := points }
                let session' := { session with
                  players := update_player_in_roster ref.name
                    (fun p => { p with
                      answers := p.answers ++ [answer]
                      total_score := p.total_score + points }) session.players }
                .ok ({ st with sessions := dictInsert ref.session_id session' st.sessions },
                  [(sid, .answer_submitted points),
                   (session.host_sid, .player_answered ref.name)])

/-- `disconnect` (lines 30-36): mark the bound player as not connected;
the roster and the `players` binding are kept. -/
def disconnect (st : ServerState) (sid : String) : ServerState :=
  match dictGet sid st.players with
  | none => st
  | some ref =>
    match dictGet ref.session_id st.sessions with
    | none => st
    | some session =>
      let session' := { session with
        players := update_player_in_roster ref.name
          (fun p => { p with connected := false }) session.players }
      { st with sessions := dictInsert ref.session_id session' st.sessions }

/-- `countdown_timer` (lines 307-321), one recursion step per loop
iteration.  `alive t` tells whether `session_id in sessions` held at the
`t`-th iteration (`t` counted from 0); the boolean result records whether
the loop ran to completion and therefore proceeds to
`show_question_results` (a `false` is the early return at line 312, after
which nothing more is emitted for the session). -/
def countdown_run (alive : Nat → Bool) : Nat → Nat → List Event × Bool
  | 0, _ => ([.time_up], true)
  | r + 1, t =>
    if alive t then
      let rest := countdown_run alive r (t + 1)
      (.timer_update (r + 1) :: rest.1, rest.2)
    else ([], false)

/-- `countdown_timer(session_id, duration)`: the events it emits and
whether it completes. -/
def countdown_timer (alive : Nat → Bool) (duration : Nat) : List Event × Bool :=
  countdown_run alive duration 0

/-! ### Event-driven evolution of the server state

One `Input` is one atomic piece of work on the shared state: an inbound
handler, or one internal continuation of the game loop (`advance` for
`next_question` — `start` already contains its first advancement —,
`results` for `show_question_results`, `finish` for `end_game`).  The
cooperative scheduler interleaves these arbitrarily, so the theorems
quantify over arbitrary input traces. -/

/-- An atomic piece of work on the shared server state. -/
inductive Input where
  | create (sid session_id : String) (quiz_name : Option String) (questions : List Question)
  | join (sid : String) (session_id? : Option String) (player_name : String)
  | start (sid : String) (session_id? : Option String) (perm : List Nat) (now : ℚ)
  | advance (session_id : String) (perm : List Nat) (now : ℚ)
  | results (session_id : String)
  | finish (session_id : String)
  | submit (sid : String) (answer_index? : Option Int) (now : ℚ)
  | disc (sid : String)

/-- Run one input; an unhandled exception in `submit_answer` aborts the
handler before any mutation, leaving the state as it was. -/
def step (st : ServerState) (i : Input) : ServerState × List Emit :=
  match i with
  | .create sid session_id quiz_name questions =>
    create_session st sid session_id quiz_name questions
  | .join sid session_id? player_name => join_session st sid session_id? player_name
  | .start sid session_id? perm now => start_game st sid session_id? perm now
  | .advance session_id perm now =>
    let r := next_question st session_id perm now
    (r.1, r.2.1)
  | .results session_id => show_question_results st session_id
  | .finish session_id => end_game st session_id
  | .submit sid answer_index? now =>
    match submit_answer st sid answer_index? now with
    | .ok r => r
    | .error _ => (st, [])
  | .disc sid => (disconnect st sid, [])

/-- Run a trace of inputs. -/
def reach (st : ServerState) (is : List Input) : ServerState :=
  is.foldl (fun s i => (step s i).1) st

/-- The empty initial state of the module. -/
def initState : ServerState := ⟨[], [], []⟩

/-- What every consumer of a shuffle record reads: the record cached for
question `i` of the session stored under `code` (the lookup of lines 153,
333, 390 and 450). -/
def read_shuffle (st : ServerState) (code : String) (i : Int) : Option ShuffleData :=
  (dictGet code st.sessions).bind (fun s => dictGet i s.question_shuffles)

/-- Whether an input is a `create_session` for the given code (which
replaces the stored session wholesale). -/
def Input.createsCode (inp : Input) (code : String) : Bool :=
  match inp with
  | .create _ session_id _ _ => session_id == code
  | _ => false

/-- Whether an event is a question broadcast (`new_question`). -/
def Event.isQuestionBroadcast : Event → Bool
  | .new_question .. => true
  | _ => false

/-- Invariant of the sessions map: every cached shuffle key is at most the
session's current question index (a record is created only at the moment
its question becomes current). -/
def KeysLe (sessions : List (String × GameSession)) : Prop :=
  ∀ code s, dictGet code sessions = some s →
    ∀ i sd, dictGet i s.question_shuffles = some sd → i ≤ s.current_question_index

/-! ### Concrete fixtures used by witnesses and counterexamples -/

/-- A two-question quiz. -/
def demoQuestions : List Question :=
  [{ question := "q1", answers := ["a", "b"], correct_answer := 1 },
   { question := "q2", answers := ["c", "d"], correct_answer := 0 }]

/-- Shuffle record of question 0 under the permutation `[1, 0]`:
answers `["b", "a"]`, correct index 0. -/
def demoShuffle : ShuffleData := shuffle_answers ["a", "b"] 1 [1, 0]

/-- A player who has already answered question 0. -/
def demoAlice : Player :=
  { sid := "S1", name := "alice", session_id := "QUIZ001", total_score := 600
    answers := [{ question_index := 0, answer_index := 0, time_taken := 2, points_earned := 600 }]
    connected := true }

/-- A player who has not answered yet. -/
def demoBob : Player :=
  { sid := "S2", name := "bob", session_id := "QUIZ001", total_score := 0
    answers := [], connected := true }

/-- A disconnected player with prior score and answers. -/
def demoCarol : Player :=
  { sid := "S3", name := "carol", session_id := "QUIZ001", total_score := 250
    answers := [{ question_index := 0, answer_index := 1, time_taken := 3, points_earned := 250 }]
    connected := false }

/-- A playing session on question 0, presented at time 100. -/
def demoSession : GameSession :=
  { session_id := "QUIZ001", host_sid := "H", quiz_name := none
    players := [demoAlice, demoBob, demoCarol]
    questions := demoQuestions
    current_question_index := 0
    state := "playing"
    question_start_time := some 100
    question_shuffles := [(0, demoShuffle)] }

/-- Server state holding `demoSession` with all three players bound. -/
def demoState : ServerState :=
  { sessions := [("QUIZ001", demoSession)]
    players := [("S1", ⟨"QUIZ001", "alice"⟩), ("S2", ⟨"QUIZ001", "bob"⟩),
                ("S3", ⟨"QUIZ001", "carol"⟩)]
    player_sessions := [("alice", "QUIZ001"), ("bob", "QUIZ001"), ("carol", "QUIZ001")] }

/-- A session still in the `waiting` state: no question was ever presented,
so `question_start_time` is `None`. -/
def demoWaitingSession : GameSession :=
  { session_id := "QUIZ002", host_sid := "H2"
    players := [{ sid := "S9", name := "dave", session_id := "QUIZ002" }]
    questions := demoQuestions }

/-- Server state holding the waiting session with its one bound player. -/
def demoWaitingState : ServerState :=
  { sessions := [("QUIZ002", demoWaitingSession)]
    players := [("S9", ⟨"QUIZ002", "dave"⟩)]
    player_sessions := [("dave", "QUIZ002")] }

/-- A finished session (all questions consumed: index = question count). -/
def demoFinishedSession : GameSession :=
  { session_id := "QUIZ003", host_sid := "H3", players := []
    questions := demoQuestions, current_question_index := 2
    state := "finished", question_start_time := some 0
    question_shuffles := [(0, demoShuffle)] }

/-- Server state holding the finished session. -/
def demoFinishedState : ServerState :=
  { sessions := [("QUIZ003", demoFinishedSession)], players := [], player_sessions := [] }

/-- Four players with scores 50, 200, 200, 10 in roster order. -/
def lbDemoSession : GameSession :=
  { session_id := "QUIZ004", host_sid := "H4"
    players := [{ sid := "T1", name := "p1", session_id := "QUIZ004", total_score := 50 },
                { sid := "T2", name := "p2", session_id := "QUIZ004", total_score := 200 },
                { sid := "T3", name := "p3", session_id := "QUIZ004", total_score := 200 },
                { sid := "T4", name := "p4", session_id := "QUIZ004", total_score := 10 }]
    questions := demoQuestions, current_question_index := 1, state := "playing"
    question_start_time := some 0, question_shuffles := [] }

/-- A trace that creates session "Q1", joins one player and starts the
game, presenting question 0 under the permutation `[1, 0]`. -/
def c2t1 : List Input :=
  [.create "H" "Q1" none demoQuestions,
   .join "P" (some "Q1") "eve",
   .start "H" (some "Q1") [1, 0] 0]

/-- A follow-up trace: a submission, a disconnect and the advancement to
question 1 — none of which recreates session "Q1". -/
def c2t2 : List Input :=
  [.submit "P" (some 0) 3, .disc "P", .advance "Q1" [0, 1] 40]

/-! ### Helper lemmas -/

theorem dictGet_insert_eq {κ α : Type} [DecidableEq κ] (k : κ) (v : α) (m : List (κ × α)) :
    dictGet k (dictInsert k v m) = some v := by
  induction m with
  | nil => simp [dictGet, dictInsert]
  | cons p rest ih =>
    by_cases h : p.1 = k
    · simp [dictInsert, h, dictGet]
    · simp [dictInsert, h, dictGet, ih]

theorem dictGet_insert_ne {κ α : Type} [DecidableEq κ] (k k' : κ) (v : α) (m : List (κ × α))
    (h : k' ≠ k) : dictGet k (dictInsert k' v m) = dictGet k m := by
  induction m with
  | nil => simp [dictGet, dictInsert, h]
  | cons p rest ih =>
    by_cases hp : p.1 = k'
    · simp [dictInsert, hp, dictGet, h]
    · simp [dictInsert, hp, dictGet, ih]

theorem dictGet_remove_eq {κ α : Type} [DecidableEq κ] (k : κ) (m : List (κ × α)) :
    dictGet k (dictRemove k m) = none := by
  induction m with
  | nil => simp [dictGet, dictRemove]
  | cons p rest ih =>
    by_cases hp : p.1 = k
    · simpa [dictRemove, hp] using ih
    · simpa [dictRemove, hp, dictGet] using ih

theorem dictGet_remove_ne {κ α : Type} [DecidableEq κ] (k k' : κ) (m : List (κ × α))
    (h : k' ≠ k) : dictGet k (dictRemove k' m) = dictGet k m := by
  induction m with
  | nil => simp [dictGet, dictRemove]
  | cons p rest ih =>
    by_cases hp : p.1 = k'
    · have hk : p.1 ≠ k := fun hk => h (hp.symm.trans hk)
      simpa [dictRemove, List.filter_cons, hp, dictGet, hk, h] using ih
    · have hkk : k ≠ k' := fun hh => h hh.symm
      by_cases hk : p.1 = k
      · simp [dictRemove, List.filter_cons, hp, dictGet, hk, hkk]
      · simpa [dictRemove, List.filter_cons, hp, dictGet, hk, hkk] using ih

theorem find_update_player (ps : List Player) (name : String) (f : Player → Player)
    (p : Player) (hf : ∀ q, (f q).name = q.name)
    (h : find_player_by_name ps name = some p) :
    find_player_by_name (update_player_in_roster name f ps) name = some (f p) := by
  induction ps with
  | nil => simp [find_player_by_name] at h
  | cons q rest ih =>
    rw [update_player_in_roster]
    by_cases hq : (q.name == name) = true
    · rw [if_pos hq]
      rw [find_player_by_name, List.find?_cons] at h
      simp only [hq] at h
      obtain rfl : q = p := Option.some.inj h
      rw [find_player_by_name, List.find?_cons]
      simp [hf q, hq]
    · rw [if_neg hq]
      rw [find_player_by_name, List.find?_cons] at h
      simp only [Bool.not_eq_true] at hq
      simp only [hq] at h
      rw [find_player_by_name, List.find?_cons]
      simp only [hq]
      exact ih h

theorem pair_get_sublist {α : Type} (l : List α) :
    ∀ (i j : Nat) (hij : i < j) (hj : j < l.length),
      List.Sublist [l.get ⟨i, Nat.lt_trans hij hj⟩, l.get ⟨j, hj⟩] l := by
  induction l with
  | nil => intro i j hij hj; exact absurd hj (Nat.not_lt_zero j)
  | cons a rest ih =>
    intro i j hij hj
    cases i with
    | zero =>
      cases j with
      | zero => exact absurd hij (lt_irrefl 0)
      | succ j' =>
        simp only [List.get]
        exact List.Sublist.cons₂ a (List.singleton_sublist.mpr (rest.get_mem _ _))
    | succ i' =>
      cases j with
      | zero => exact absurd hij (Nat.not_lt_zero _)
      | succ j' =>
        simp only [List.get]
        exact List.Sublist.cons a
          (ih i' j' (Nat.lt_of_succ_lt_succ hij) (Nat.lt_of_succ_lt_succ hj))

theorem end_game_spec (st : ServerState) (code : String) (s : GameSession)
    (h : dictGet code st.sessions = some s) :
    end_game st code =
      ({ st with sessions := dictInsert code { s with state := "finished" } st.sessions },
       [(code, .game_over (get_leaderboard { s with state := "finished" }))]) := by
  simp [end_game, h]

theorem end_game_shape (st : ServerState) (code : String) :
    (end_game st code).2 = [] ∨
      ∃ lb, (end_game st code).2 = [(code, .game_over lb)] := by
  rw [end_game]
  cases dictGet code st.sessions with
  | none => exact Or.inl rfl
  | some s => exact Or.inr ⟨_, rfl⟩

/-- The three possible outcomes of one `next_question` call, as far as its
emissions and scheduled countdown are concerned: nothing (missing session
or index error), a `game_over` via `end_game`, or exactly one
`new_question` advertising 25 s together with a scheduled 25-tick
countdown. -/
theorem next_question_shape (st : ServerState) (code : String) (perm : List Nat) (now : ℚ) :
    ((next_question st code perm now).2.1 = [] ∧
      (next_question st code perm now).2.2 = none) ∨
    (∃ lb, (next_question st code perm now).2.1 = [(code, .game_over lb)] ∧
      (next_question st code perm now).2.2 = none) ∨
    (∃ n tq q ans ty iu, (next_question st code perm now).2.1 =
        [(code, .new_question n tq q ans 25 false ty iu)] ∧
      (next_question st code perm now).2.2 = some (code, 25)) := by
  rw [next_question]
  cases hdg : dictGet code st.sessions with
  | none => exact Or.inl ⟨rfl, rfl⟩
  | some s =>
    simp only
    split
    · have h3 := end_game_shape
        { st with
          sessions := dictInsert code
                        ({ s with current_question_index := s.current_question_index + 1 })
                        st.sessions }
        code
      rcases h3 with h | ⟨lb, h⟩
      · exact Or.inl ⟨h, rfl⟩
      · exact Or.inr (Or.inl ⟨lb, h, rfl⟩)
    · cases hpi : pyIndex s.questions (s.current_question_index + 1) with
      | none => exact Or.inl ⟨rfl, rfl⟩
      | some q => exact Or.inr (Or.inr ⟨_, _, _, _, _, _, rfl, rfl⟩)

theorem start_game_eq_of_core (st : ServerState) (sid : String) (sidq : Option String)
    (st1 : ServerState) (evs : List Emit) (code : String) (perm : List Nat) (now : ℚ)
    (h : start_game_core st sid sidq = (st1, evs, some code)) :
    start_game st sid sidq perm now =
      ((next_question st1 code perm now).1, evs ++ (next_question st1 code perm now).2.1) := by
  rw [start_game, h]

theorem next_question_end_of_quiz (st : ServerState) (code : String) (perm : List Nat)
    (now : ℚ) (s : GameSession)
    (h : dictGet code st.sessions = some s)
    (hidx : (s.questions.length : Int) ≤ s.current_question_index + 1) :
    next_question st code perm now =
      ((end_game { st with
          sessions := dictInsert code
                        ({ s with current_question_index := s.current_question_index + 1 })
                        st.sessions } code).1,
       (end_game { st with
          sessions := dictInsert code
                        ({ s with current_question_index := s.current_question_index + 1 })
                        st.sessions } code).2,
       none) := by
  simp only [next_question, h]
  split
  · rfl
  · next hneg => exact absurd hidx hneg

/-! ### Claim C1: the scoring function -/

/-- C1: for every boolean `is_correct`, elapsed time `t ≥ 0` and positive
limit `L`, `calculate_score` returns 0 when `t > L`, otherwise with
`speed = 1 - t/L` it returns `100 + 900*speed` when correct and
`-(500*speed)` when incorrect; in particular `score(true,0,10) = 1000`,
`score(true,10,10) = 100`, `score(true,15,10) = 0`,
`score(false,0,10) = -500` and `score(false,10,10) = 0`.  It is a pure
function, hence deterministic. -/
theorem calculate_score_spec (b : Bool) (t L : ℚ) (ht : 0 ≤ t) (hL : 0 < L) :
    (t > L → calculate_score b t L = 0) ∧
    (¬ t > L →
      calculate_score b t L =
        if b then 100 + 900 * (1 - t / L) else -(500 * (1 - t / L))) ∧
    calculate_score true 0 10 = 1000 ∧
    calculate_score true 10 10 = 100 ∧
    calculate_score true 15 10 = 0 ∧
    calculate_score false 0 10 = -500 ∧
    calculate_score false 10 10 = 0 := by
  refine ⟨fun h => ?_, fun h => ?_, by norm_num [calculate_score],
    by norm_num [calculate_score], by norm_num [calculate_score],
    by norm_num [calculate_score], by norm_num [calculate_score]⟩
  · simp [calculate_score, h]
  · simp [calculate_score, h]

/-- Witness for C1 at `b := true`, `t := 5`, `L := 10`. -/
theorem calculate_score_spec_witness :
    ((0 : ℚ) ≤ 5 ∧ (0 : ℚ) < 10) ∧
    ((¬ (5 : ℚ) > 10 →
      calculate_score true 5 10 = if true then 100 + 900 * (1 - 5 / 10) else -(500 * (1 - 5 / 10))) ∧
     calculate_score true 0 10 = 1000 ∧
     calculate_score false 0 10 = -500) :=
  ⟨⟨by norm_num, by norm_num⟩,
   (calculate_score_spec true 5 10 (by norm_num) (by norm_num)).2.1,
   (calculate_score_spec true 5 10 (by norm_num) (by norm_num)).2.2.1,
   (calculate_score_spec true 5 10 (by norm_num) (by norm_num)).2.2.2.2.2.1⟩

/-! ### Claim C3: the shuffler points at the same answer text -/

/-- C3: for any answer list `A`, valid correct index `c < |A|`, and any
permutation of the index range (the output of `random.shuffle`), the
shuffle record satisfies `shuffled[newCorrectIndex] = A[c]`. -/
theorem shuffle_answers_preserves_correct (A : List String) (c : Nat) (perm : List Nat)
    (hperm : perm.Perm (List.range A.length)) (hc : c < A.length) :
    ((shuffle_answers A c perm).answers).getD ((shuffle_answers A c perm).correct_index) ""
      = A.getD c "" := by
  have hmem : c ∈ perm := hperm.mem_iff.mpr (List.mem_range.mpr hc)
  have hidx : perm.indexOf c < perm.length := List.indexOf_lt_length.mpr hmem
  have hidx' : perm.indexOf c < (perm.map (fun i => A.getD i "")).length := by
    simpa using hidx
  simp only [shuffle_answers]
  rw [List.getD_eq_get _ _ hidx', List.get_map, List.indexOf_get hidx]

/-- Witness for C3: `A = ["Milano","Roma","Napoli","Firenze"]`, `c = 1`,
permutation `[2,0,3,1]`; the shuffled correct slot still reads `"Roma"`. -/
theorem shuffle_answers_preserves_correct_witness :
    ([2, 0, 3, 1] : List Nat).Perm (List.range (["Milano", "Roma", "Napoli", "Firenze"] : List String).length) ∧
    1 < (["Milano", "Roma", "Napoli", "Firenze"] : List String).length ∧
    ((shuffle_answers ["Milano", "Roma", "Napoli", "Firenze"] 1 [2, 0, 3, 1]).answers).getD
      ((shuffle_answers ["Milano", "Roma", "Napoli", "Firenze"] 1 [2, 0, 3, 1]).correct_index) ""
      = (["Milano", "Roma", "Napoli", "Firenze"] : List String).getD 1 "" :=
  ⟨by decide, by decide,
   shuffle_answers_preserves_correct ["Milano", "Roma", "Napoli", "Firenze"] 1 [2, 0, 3, 1]
     (by decide) (by decide)⟩

/-! ### Claim C4: duplicate submissions are rejected without effect -/

/-- C4: if an `Answer` already exists for the session's current question
index for the bound player, a second `submit_answer` is rejected with an
error event and the returned state is the input state unchanged — the
first `Answer`, the player's answer list and total score, and the session
are all unaffected. -/
theorem submit_answer_duplicate_rejected (st : ServerState) (sid : String)
    (ref : PRef) (session : GameSession) (player : Player) (ai? : Option Int) (now : ℚ)
    (href : dictGet sid st.players = some ref)
    (hsess : dictGet ref.session_id st.sessions = some session)
    (hfind : find_player_by_name session.players ref.name = some player)
    (hdup : player.answers.any
      (fun a => a.question_index == session.current_question_index) = true) :
    submit_answer st sid ai? now = .ok (st, [(sid, .error "Already answered")]) := by
  simp [submit_answer, href, hsess, hfind, hdup]

/-- Witness for C4: alice already answered question 0 of the demo session;
her repeated submission is rejected and the state is returned unchanged. -/
theorem submit_answer_duplicate_rejected_witness :
    demoAlice.answers.any
      (fun a => a.question_index == demoSession.current_question_index) = true ∧
    submit_answer demoState "S1" (some 1) 105 =
      .ok (demoState, [("S1", .error "Already answered")]) :=
  ⟨rfl, submit_answer_duplicate_rejected demoState "S1" ⟨"QUIZ001", "alice"⟩
    demoSession demoAlice (some 1) 105 rfl rfl rfl rfl⟩

/-! ### Claim C9: `submit_answer` raises for a bound connection in the
`waiting` state (code bug) -/

/-- C9 is violated by the code: a bound player submitting while the
session is still `waiting` (so `question_start_time` is `None`) makes
`submit_answer` raise an unhandled `TypeError` at
`current_time - session.question_start_time` (line 387) instead of
surfacing an error event. -/
theorem submit_answer_raises_in_waiting_state :
    submit_answer demoWaitingState "S9" (some 0) 5 = .error "TypeError" := rfl

/-! ### Claim C10: scoring uses a fixed 10 s limit while the question is
advertised and timed at 25 s -/

/-- C10: `submit_answer` always scores with `calculate_score(_, _, 10)`,
so any submission with elapsed time over 10 s earns exactly 0 points even
when correct, yet the `Answer` is still recorded as the player's single
answer for the question; meanwhile every `new_question` broadcast emitted
by `next_question` advertises `time_limit = 25` and the countdown it
starts runs 25 ticks. -/
theorem submit_answer_fixed_ten_second_limit (st : ServerState) (sid : String)
    (ref : PRef) (session : GameSession) (player : Player) (sd : ShuffleData)
    (ai : Int) (now t0 : ℚ)
    (href : dictGet sid st.players = some ref)
    (hsess : dictGet ref.session_id st.sessions = some session)
    (hfind : find_player_by_name session.players ref.name = some player)
    (hnew : player.answers.any
      (fun a => a.question_index == session.current_question_index) = false)
    (hstart : session.question_start_time = some t0)
    (hsd : dictGet session.current_question_index session.question_shuffles = some sd)
    (hlate : 10 < now - t0) :
    (∀ b, calculate_score b (now - t0) 10 = 0) ∧
    (∃ session',
      submit_answer st sid (some ai) now = .ok
        ({ st with sessions := dictInsert ref.session_id session' st.sessions },
         [(sid, .answer_submitted 0), (session.host_sid, .player_answered ref.name)]) ∧
      find_player_by_name session'.players ref.name = some { player with
        answers := player.answers ++
          [{ question_index := session.current_question_index
             answer_index := ai
             time_taken := now - t0
             points_earned := 0 }]
        total_score := player.total_score }) ∧
    (∀ st₂ code perm now₂ e, e ∈ (next_question st₂ code perm now₂).2.1 →
      e.2.isQuestionBroadcast = true →
      ∃ n tq q ans aa ty iu, e.2 = .new_question n tq q ans 25 aa ty iu) ∧
    (∀ st₂ code perm now₂ c d,
      (next_question st₂ code perm now₂).2.2 = some (c, d) → d = 25) := by
  have hpts : ∀ b, calculate_score b (now - t0) 10 = 0 := by
    intro b
    simp [calculate_score, hlate]
  refine ⟨hpts, ?_, ?_, ?_⟩
  · refine ⟨{ session with
        players := update_player_in_roster ref.name
          (fun p => { p with
            answers := p.answers ++
              [{ question_index := session.current_question_index
                 answer_index := ai
                 time_taken := now - t0
                 points_earned := calculate_score
                   (some ai == some ((sd.correct_index : Int))) (now - t0) 10 }]
            total_score := p.total_score + calculate_score
              (some ai == some ((sd.correct_index : Int))) (now - t0) 10 })
          session.players }, ?_, ?_⟩
    · simp [submit_answer, href, hsess, hfind, hnew, hstart, hsd, hpts]
    · have h4 := find_update_player session.players ref.name
        (fun p => { p with
          answers := p.answers ++
            [{ question_index := session.current_question_index
               answer_index := ai
               time_taken := now - t0
               points_earned := calculate_score
                 (some ai == some ((sd.correct_index : Int))) (now - t0) 10 }]
          total_score := p.total_score + calculate_score
            (some ai == some ((sd.correct_index : Int))) (now - t0) 10 })
        player (fun q => rfl) hfind
      simpa [hpts] using h4
  · intro st₂ code perm now₂ e he hb
    rcases next_question_shape st₂ code perm now₂ with ⟨h1, _⟩ | ⟨lb, h1, _⟩ |
      ⟨n, tq, q, ans, ty, iu, h1, _⟩
    · rw [h1] at he
      simp at he
    · rw [h1] at he
      simp only [List.mem_singleton] at he
      subst he
      simp [Event.isQuestionBroadcast] at hb
    · rw [h1] at he
      simp only [List.mem_singleton] at he
      subst he
      exact ⟨n, tq, q, ans, false, ty, iu, rfl⟩
  · intro st₂ code perm now₂ c d h
    rcases next_question_shape st₂ code perm now₂ with ⟨_, h2⟩ | ⟨lb, _, h2⟩ |
      ⟨n, tq, q, ans, ty, iu, _, h2⟩ <;> rw [h2] at h
    · cases h
    · cases h
    · simp only [Option.some.injEq, Prod.mk.injEq] at h
      exact h.2.symm

/-- Witness for C10: bob submits the (shuffled-)correct answer 15 s after
question 0 was presented — past the 10 s scoring limit but inside the
advertised 25 s window — and every such submission scores 0. -/
theorem submit_answer_fixed_ten_second_limit_witness :
    ((10 : ℚ) < 115 - 100) ∧
    (∀ b, calculate_score b ((115 : ℚ) - 100) 10 = 0) ∧
    (∀ st₂ code perm now₂ c d,
      (next_question st₂ code perm now₂).2.2 = some (c, d) → d = 25) :=
  ⟨by norm_num,
   (submit_answer_fixed_ten_second_limit demoState "S2" ⟨"QUIZ001", "bob"⟩
     demoSession demoBob demoShuffle 0 115 100 rfl rfl rfl rfl rfl rfl (by norm_num)).1,
   (submit_answer_fixed_ten_second_limit demoState "S2" ⟨"QUIZ001", "bob"⟩
     demoSession demoBob demoShuffle 0 115 100 rfl rfl rfl rfl rfl rfl (by norm_num)).2.2.2⟩

/-! ### Claim C5: reconnection rebinds the same player -/

/-- C5: a join with a display name matching an existing roster player of a
not-yet-finished session while that player is not-live reconnects them:
the reply (the first emission, sent to the joining connection) carries
`reconnected = true` and the prior total score; the new connection id is
bound to the player; the old connection id no longer resolves; and the
roster still holds the same player object — same score and answer
history — now carrying the new connection id. -/
theorem join_session_reconnects (st : ServerState) (sid code name : String)
    (session : GameSession) (player : Player)
    (hsess : dictGet code st.sessions = some session)
    (hfind : find_player_by_name session.players name = some player)
    (hlive : player.connected = false)
    (hstate : session.state ≠ "finished")
    (hne : sid ≠ player.sid) :
    ((join_session st sid (some code) name).2).head? = some (sid,
      .joined_session name code true session.state (some player.total_score)) ∧
    dictGet sid ((join_session st sid (some code) name).1).players = some ⟨code, name⟩ ∧
    dictGet player.sid ((join_session st sid (some code) name).1).players = none ∧
    ∃ session',
      dictGet code ((join_session st sid (some code) name).1).sessions = some session' ∧
      find_player_by_name session'.players name =
        some { player with sid := sid, connected := true } := by
  obtain ⟨tail, hres⟩ : ∃ tail, join_session st sid (some code) name =
      ({ st with
         sessions := dictInsert code
                       ({ session with
                          players := update_player_in_roster name
                            (fun p => { p with sid := sid, connected := true })
                            session.players })
                       st.sessions
         players := dictInsert sid ⟨code, name⟩ (dictRemove player.sid st.players) },
       (sid, .joined_session name code true session.state (some player.total_score)) :: tail) := by
    rw [join_session]
    simp only [Option.some_bind, hsess, Option.map_some', hfind]
    split
    · split
      · exact ⟨_, rfl⟩
      · exact ⟨_, rfl⟩
    · exact ⟨_, rfl⟩
  rw [hres]
  refine ⟨rfl, dictGet_insert_eq _ _ _, ?_, ?_⟩
  · rw [dictGet_insert_ne _ _ _ _ hne]
    exact dictGet_remove_eq _ _
  · exact ⟨_, dictGet_insert_eq _ _ _,
      find_update_player session.players name _ player (fun q => rfl) hfind⟩

/-- Witness for C5: carol (not-live, old sid "S3") rejoins as "S4". -/
theorem join_session_reconnects_witness :
    demoCarol.connected = false ∧ demoSession.state ≠ "finished" ∧ "S4" ≠ demoCarol.sid ∧
    (((join_session demoState "S4" (some "QUIZ001") "carol").2).head? = some ("S4",
      .joined_session "carol" "QUIZ001" true demoSession.state (some demoCarol.total_score)) ∧
     dictGet "S4" ((join_session demoState "S4" (some "QUIZ001") "carol").1).players =
       some ⟨"QUIZ001", "carol"⟩ ∧
     dictGet demoCarol.sid ((join_session demoState "S4" (some "QUIZ001") "carol").1).players = none ∧
     ∃ session',
       dictGet "QUIZ001" ((join_session demoState "S4" (some "QUIZ001") "carol").1).sessions =
         some session' ∧
       find_player_by_name session'.players "carol" =
         some { demoCarol with sid := "S4", connected := true }) :=
  ⟨rfl, by decide, by decide,
   join_session_reconnects demoState "S4" "QUIZ001" "carol" demoSession demoCarol
     rfl rfl rfl (by decide) (by decide)⟩

/-! ### Claim C6: `finished` is not terminal (corrected)

`start_game` (lines 206-239) never checks `session.state`, so a further
`start_game` from the host of a finished session is accepted: it sets the
state back to `'playing'` and re-broadcasts `game_started` before the
handler suspends to await `next_question`.  The immediate advancement then
finds the index past the end and re-finishes the session, so no
`new_question` broadcast occurs. -/

/-- Counterexample to C6: for the concrete finished session, a further
`start_game` from the host is accepted — no error event, `game_started`
is re-broadcast, the advancement continuation is scheduled — and the
stored session state is `'playing'` again at the moment the handler
awaits its first advancement. -/
theorem start_game_after_finished_cex :
    demoFinishedSession.state = "finished" ∧
    (start_game_core demoFinishedState "H3" (some "QUIZ003")).2.2 = some "QUIZ003" ∧
    (start_game_core demoFinishedState "H3" (some "QUIZ003")).2.1 =
      [("QUIZ003", .game_started)] ∧
    (dictGet "QUIZ003" (start_game_core demoFinishedState "H3" (some "QUIZ003")).1.sessions).map
      GameSession.state = some "playing" := by
  refine ⟨rfl, rfl, rfl, rfl⟩

/-- C6 amended: a `start_game` for a finished session (host matching, all
questions consumed) is accepted and transiently re-enters `'playing'`,
re-broadcasting `game_started`; the immediately following advancement
re-finishes the session (emitting `game_over` again), so the net state is
`'finished'` once more and no `new_question` broadcast ever occurs. -/
theorem start_game_on_finished_refinishes (st : ServerState) (sid code : String)
    (session : GameSession) (perm : List Nat) (now : ℚ)
    (hsess : dictGet code st.sessions = some session)
    (hhost : session.host_sid = sid)
    (hfin : session.state = "finished")
    (hidx : (session.questions.length : Int) ≤ session.current_question_index) :
    (start_game_core st sid (some code)).2.1 = [(code, .game_started)] ∧
    (∃ s1, dictGet code (start_game_core st sid (some code)).1.sessions = some s1 ∧
      s1.state = "playing") ∧
    (∃ s2, dictGet code (start_game st sid (some code) perm now).1.sessions = some s2 ∧
      s2.state = "finished") ∧
    (∃ lb, (start_game st sid (some code) perm now).2 =
      [(code, .game_started), (code, .game_over lb)]) ∧
    (∀ e ∈ (start_game st sid (some code) perm now).2,
      e.2.isQuestionBroadcast = false) := by
  have hcore : start_game_core st sid (some code) =
      ({ st with sessions := dictInsert code ({ session with state := "playing" }) st.sessions },
       [(code, .game_started)], some code) := by
    rw [start_game_core]
    simp [hsess, hhost]
  have hs1 : dictGet code
      (dictInsert code ({ session with state := "playing" }) st.sessions) =
      some ({ session with state := "playing" }) := dictGet_insert_eq _ _ _
  have hng := next_question_end_of_quiz
    { st with sessions := dictInsert code ({ session with state := "playing" }) st.sessions }
    code perm now ({ session with state := "playing" }) hs1
    (by simpa using le_trans hidx (by omega))
  have hfull := start_game_eq_of_core st sid (some code) _ _ code perm now hcore
  rw [hng] at hfull
  rw [end_game_spec _ code _ (dictGet_insert_eq _ _ _)] at hfull
  refine ⟨?_, ?_, ?_, ?_, ?_⟩
  · rw [hcore]
  · rw [hcore]
    exact ⟨_, dictGet_insert_eq _ _ _, rfl⟩
  · rw [hfull]
    exact ⟨_, dictGet_insert_eq _ _ _, rfl⟩
  · rw [hfull]
    exact ⟨_, rfl⟩
  · rw [hfull]
    intro e he
    cases he with
    | head => rfl
    | tail _ he2 =>
      cases he2 with
      | head => rfl
      | tail _ he3 => cases he3

/-- Witness for the amended C6, on the concrete finished session. -/
theorem start_game_on_finished_refinishes_witness :
    demoFinishedSession.state = "finished" ∧
    ((demoFinishedSession.questions.length : Int) ≤ demoFinishedSession.current_question_index) ∧
    (∃ s2, dictGet "QUIZ003"
        (start_game demoFinishedState "H3" (some "QUIZ003") [0, 1] 50).1.sessions = some s2 ∧
      s2.state = "finished") ∧
    (∀ e ∈ (start_game demoFinishedState "H3" (some "QUIZ003") [0, 1] 50).2,
      e.2.isQuestionBroadcast = false) :=
  ⟨rfl, by decide,
   (start_game_on_finished_refinishes demoFinishedState "H3" "QUIZ003" demoFinishedSession
     [0, 1] 50 rfl rfl rfl (by decide)).2.2.1,
   (start_game_on_finished_refinishes demoFinishedState "H3" "QUIZ003" demoFinishedSession
     [0, 1] 50 rfl rfl rfl (by decide)).2.2.2.2⟩

/-! ### Claim C7: the leaderboard -/

/-- C7: `get_leaderboard` returns one entry per roster player (their
`lb_entry`: name, total score, and correct-answer count judged against the
Shuffle-Record-resolved correct index), sorted descending by score, and
the sort is stable: whenever the entries at roster positions `i < j`
satisfy `score j ≤ score i` (in particular on ties), the `i` entry stays
before the `j` entry in the output. -/
theorem get_leaderboard_spec (session : GameSession) :
    (get_leaderboard session).length = session.players.length ∧
    (get_leaderboard session).Perm (session.players.map (lb_entry session)) ∧
    (get_leaderboard session).Pairwise (fun a b => b.score ≤ a.score) ∧
    ∀ (i j : Nat) (ei ej : LBEntry), i < j →
      (session.players.map (lb_entry session)).get? i = some ei →
      (session.players.map (lb_entry session)).get? j = some ej →
      ej.score ≤ ei.score →
      List.Sublist [ei, ej] (get_leaderboard session) := by
  have htrans : ∀ (a b c : LBEntry), lb_le a b → lb_le b c → lb_le a c := by
    intro a b c hab hbc
    simp only [lb_le, decide_eq_true_eq] at hab hbc ⊢
    exact le_trans hbc hab
  have htotal : ∀ (a b : LBEntry), lb_le a b || lb_le b a := by
    intro a b
    simp only [lb_le, Bool.or_eq_true, decide_eq_true_eq]
    exact le_total b.score a.score
  refine ⟨?_, ?_, ?_, ?_⟩
  · simp [get_leaderboard]
  · exact List.mergeSort_perm _ _
  · have h := List.sorted_mergeSort htrans htotal (session.players.map (lb_entry session))
    exact h.imp (fun hab => by simpa [lb_le] using hab)
  · intro i j ei ej hij hei hej hscore
    obtain ⟨hj, hej'⟩ := List.get?_eq_some.mp hej
    obtain ⟨hi, hei'⟩ := List.get?_eq_some.mp hei
    have hp := pair_get_sublist (session.players.map (lb_entry session)) i j hij hj
    rw [show (session.players.map (lb_entry session)).get ⟨i, Nat.lt_trans hij hj⟩ = ei
        from hei', hej'] at hp
    exact List.pair_sublist_mergeSort htrans htotal (by simpa [lb_le] using hscore) hp

/-- Witness for C7 on four players with scores 50, 200, 200, 10: the
leaderboard sorts to 200, 200, 50, 10 with the tied 200s (roster
positions 1 and 2) in roster order. -/
theorem get_leaderboard_spec_witness :
    (get_leaderboard lbDemoSession).Pairwise (fun a b => b.score ≤ a.score) ∧
    List.Sublist
      [{ name := "p2", score := 200, correct_answers := 0 },
       { name := "p3", score := 200, correct_answers := 0 }]
      (get_leaderboard lbDemoSession) ∧
    get_leaderboard lbDemoSession =
      [{ name := "p2", score := 200, correct_answers := 0 },
       { name := "p3", score := 200, correct_answers := 0 },
       { name := "p1", score := 50, correct_answers := 0 },
       { name := "p4", score := 10, correct_answers := 0 }] := by
  refine ⟨(get_leaderboard_spec lbDemoSession).2.2.1, ?_, ?_⟩
  · exact (get_leaderboard_spec lbDemoSession).2.2.2 1 2
      { name := "p2", score := 200, correct_answers := 0 }
      { name := "p3", score := 200, correct_answers := 0 }
      (by norm_num) (by decide) (by decide) (by norm_num)
  · simp [get_leaderboard, lbDemoSession, lb_entry, demoQuestions, List.mergeSort,
      List.splitInTwo, List.splitAt, List.splitAt.go, List.merge, lb_le]
    norm_num [List.merge, lb_le]

/-! ### Claim C8: the countdown -/

theorem range_succ_map_timer (n k : Nat) :
    (List.range (k + 1)).map (fun u => Event.timer_update (n + 1 - u)) =
      Event.timer_update (n + 1) :: (List.range k).map (fun u => Event.timer_update (n - u)) := by
  rw [List.range_succ_eq_map]
  simp [List.map_map, Function.comp, Nat.succ_sub_succ]

theorem countdown_run_complete (alive : Nat → Bool) :
    ∀ (r t0 : Nat), (∀ u, u < r → alive (t0 + u) = true) →
      countdown_run alive r t0 =
        ((List.range r).map (fun u => Event.timer_update (r - u)) ++ [.time_up], true) := by
  intro r
  induction r with
  | zero => intro t0 _; simp [countdown_run]
  | succ r ih =>
    intro t0 hal
    have h0 : alive t0 = true := by simpa using hal 0 (Nat.succ_pos r)
    have ih' := ih (t0 + 1) (fun u hu => by
      have := hal (u + 1) (Nat.succ_lt_succ hu)
      simpa [Nat.add_assoc, Nat.add_comm 1 u] using this)
    rw [countdown_run, if_pos h0, ih', range_succ_map_timer]
    rfl

theorem countdown_run_aborts (alive : Nat → Bool) :
    ∀ (r t0 t : Nat), t < r → alive (t0 + t) = false →
      (∀ u, u < t → alive (t0 + u) = true) →
      countdown_run alive r t0 =
        ((List.range t).map (fun u => Event.timer_update (r - u)), false) := by
  intro r
  induction r with
  | zero => intro t0 t ht; exact absurd ht (Nat.not_lt_zero t)
  | succ r ih =>
    intro t0 t ht hdead hal
    cases t with
    | zero =>
      rw [countdown_run, if_neg]
      · simp
      · simpa using hdead
    | succ t' =>
      have h0 : alive t0 = true := by simpa using hal 0 (Nat.succ_pos t')
      have ih' := ih (t0 + 1) t' (Nat.lt_of_succ_lt_succ ht)
        (by simpa [Nat.add_assoc, Nat.add_comm 1 t'] using hdead)
        (fun u hu => by
          have := hal (u + 1) (Nat.succ_lt_succ hu)
          simpa [Nat.add_assoc, Nat.add_comm 1 u] using this)
      rw [countdown_run, if_pos h0, ih', range_succ_map_timer]

/-- C8: the countdown's only input is, at each tick, whether the session
is still in the registry (`alive`); it never reads the players' answers,
so it cannot be cut short by all-players-answered.  If the session stays
registered it always runs the full configured duration — `duration` tick
broadcasts counting down to 1, then `time_up`, then it proceeds to the
results phase — and if the session disappears before the `t`-th tick it
stops there: only the first `t` tick broadcasts were emitted, no
`time_up`, and it does not proceed (no further events for the session). -/
theorem countdown_timer_spec (alive : Nat → Bool) (duration : Nat) :
    ((∀ t, t < duration → alive t = true) →
      countdown_timer alive duration =
        ((List.range duration).map (fun u => Event.timer_update (duration - u)) ++
          [Event.time_up], true)) ∧
    (∀ t, t < duration → alive t = false → (∀ u, u < t → alive u = true) →
      countdown_timer alive duration =
        ((List.range t).map (fun u => Event.timer_update (duration - u)), false)) := by
  constructor
  · intro hal
    exact countdown_run_complete alive duration 0 (fun u hu => by simpa using hal u hu)
  · intro t ht hdead hal
    exact countdown_run_aborts alive duration 0 t ht (by simpa using hdead)
      (fun u hu => by simpa using hal u hu)

/-- Witness for C8: a session that stays registered gets all 25 ticks and
`time_up`; one that disappears before the 4th tick gets exactly 3 ticks
and nothing further. -/
theorem countdown_timer_spec_witness :
    countdown_timer (fun _ => true) 25 =
      ((List.range 25).map (fun u => Event.timer_update (25 - u)) ++ [Event.time_up], true) ∧
    countdown_timer (fun t => decide (t < 3)) 25 =
      ((List.range 3).map (fun u => Event.timer_update (25 - u)), false) :=
  ⟨(countdown_timer_spec (fun _ => true) 25).1 (fun _ _ => rfl),
   (countdown_timer_spec (fun t => decide (t < 3)) 25).2 3 (by norm_num) (by decide)
     (fun u hu => decide_eq_true hu)⟩

/-! ### Claim C2: the shuffle record is written once and never changes

The per-step lemmas below show that every piece of work either leaves a
session's `question_shuffles` untouched or — in `next_question` alone —
inserts a record at the fresh key `current_question_index + 1`, which by
the `KeysLe` invariant cannot collide with an existing key.  Only
`create_session` for the same code discards records (it replaces the whole
session object), which is why the claim theorem quantifies over traces
that do not recreate the session. -/

theorem bind_session_lookup (st : ServerState) (code? : Option String) (c : String)
    (s : GameSession)
    (h : code?.bind (fun c0 => (dictGet c0 st.sessions).map (fun s0 => (c0, s0))) =
      some (c, s)) :
    code? = some c ∧ dictGet c st.sessions = some s := by
  cases code? with
  | none => simp at h
  | some c0 =>
    simp only [Option.some_bind] at h
    cases hdg : dictGet c0 st.sessions with
    | none => rw [hdg] at h; simp at h
    | some s0 =>
      rw [hdg] at h
      simp only [Option.map_some', Option.some.injEq, Prod.mk.injEq] at h
      obtain ⟨h1, h2⟩ := h
      subst h1
      subst h2
      exact ⟨rfl, hdg⟩

/-- Replacing the session at `c` by one with the same shuffle map and an
index at least as large preserves the invariant and all cached reads. -/
theorem preserves_of_session_update (st : ServerState) (c : String) (s s' : GameSession)
    (P : List (String × PRef)) (Q : List (String × String))
    (hc : dictGet c st.sessions = some s) (hinv : KeysLe st.sessions)
    (hsh : s'.question_shuffles = s.question_shuffles)
    (hqi : s.current_question_index ≤ s'.current_question_index) :
    KeysLe (ServerState.mk (dictInsert c s' st.sessions) P Q).sessions ∧
    ∀ code i r, read_shuffle st code i = some r →
      read_shuffle (ServerState.mk (dictInsert c s' st.sessions) P Q) code i = some r := by
  constructor
  · intro c2 s2 hc2 i sd hsd
    by_cases hcc : c2 = c
    · subst hcc
      rw [dictGet_insert_eq] at hc2
      cases hc2
      rw [hsh] at hsd
      exact le_trans (hinv _ s hc i sd hsd) hqi
    · rw [dictGet_insert_ne _ _ _ _ (fun h => hcc h.symm)] at hc2
      exact hinv c2 s2 hc2 i sd hsd
  · intro code i r hread
    unfold read_shuffle at hread ⊢
    by_cases hcc : code = c
    · subst hcc
      rw [hc] at hread
      simp only [Option.some_bind] at hread
      rw [dictGet_insert_eq]
      simp only [Option.some_bind, hsh]
      exact hread
    · rw [dictGet_insert_ne _ _ _ _ (fun h => hcc h.symm)]
      exact hread

theorem create_session_preserves (st : ServerState) (sid code' : String)
    (quiz : Option String) (qs : List Question) (hinv : KeysLe st.sessions) :
    KeysLe (create_session st sid code' quiz qs).1.sessions ∧
    ∀ code i r, (code' == code) = false → read_shuffle st code i = some r →
      read_shuffle (create_session st sid code' quiz qs).1 code i = some r := by
  rw [create_session]
  split
  · exact ⟨hinv, fun code i r _ h => h⟩
  · constructor
    · intro c s hc i sd hsd
      by_cases hcc : c = code'
      · subst hcc
        rw [dictGet_insert_eq] at hc
        cases hc
        simp [dictGet] at hsd
      · rw [dictGet_insert_ne _ _ _ _ (fun h => hcc h.symm)] at hc
        exact hinv c s hc i sd hsd
    · intro code i r hne hread
      unfold read_shuffle at hread ⊢
      have hne' : code' ≠ code := by simpa using hne
      rw [dictGet_insert_ne _ _ _ _ hne']
      exact hread

theorem join_session_preserves (st : ServerState) (sid : String) (code? : Option String)
    (name : String) (hinv : KeysLe st.sessions) :
    KeysLe (join_session st sid code? name).1.sessions ∧
    ∀ code i r, read_shuffle st code i = some r →
      read_shuffle (join_session st sid code? name).1 code i = some r := by
  cases hm : code?.bind (fun c => (dictGet c st.sessions).map (fun s => (c, s))) with
  | none =>
    rw [join_session, hm]
    exact ⟨hinv, fun _ _ _ h => h⟩
  | some cs =>
    obtain ⟨c, s⟩ := cs
    obtain ⟨-, hc⟩ := bind_session_lookup st code? c s hm
    rw [join_session, hm]
    cases hf : find_player_by_name s.players name with
    | some p =>
      simp only [hf]
      have key := preserves_of_session_update st c s
        ({ s with
           players := update_player_in_roster name
             (fun p0 => { p0 with sid := sid, connected := true }) s.players })
        (dictInsert sid ⟨c, name⟩ (dictRemove p.sid st.players)) st.player_sessions
        hc hinv rfl (le_refl _)
      split
      all_goals try split
      all_goals exact key
    | none =>
      simp only [hf]
      split
      · exact ⟨hinv, fun _ _ _ h => h⟩
      · exact preserves_of_session_update st c s
          ({ s with
             players := s.players ++
               [{ sid := sid, name := name, session_id := c, total_score := 0,
                  answers := [], connected := true }] })
          (dictInsert sid ⟨c, name⟩ st.players) (dictInsert name c st.player_sessions)
          hc hinv rfl (le_refl _)

theorem end_game_preserves (st : ServerState) (c : String) (hinv : KeysLe st.sessions) :
    KeysLe (end_game st c).1.sessions ∧
    ∀ code i r, read_shuffle st code i = some r →
      read_shuffle (end_game st c).1 code i = some r := by
  rw [end_game]
  cases hdg : dictGet c st.sessions with
  | none => exact ⟨hinv, fun _ _ _ h => h⟩
  | some s =>
    exact preserves_of_session_update st c s ({ s with state := "finished" })
      st.players st.player_sessions hdg hinv rfl (le_refl _)

theorem next_question_preserves (st : ServerState) (c : String) (perm : List Nat)
    (now : ℚ) (hinv : KeysLe st.sessions) :
    KeysLe (next_question st c perm now).1.sessions ∧
    ∀ code i r, read_shuffle st code i = some r →
      read_shuffle (next_question st c perm now).1 code i = some r := by
  rw [next_question]
  cases hdg : dictGet c st.sessions with
  | none => exact ⟨hinv, fun _ _ _ h => h⟩
  | some s =>
    simp only
    have hstep1 := preserves_of_session_update st c s
      ({ s with current_question_index := s.current_question_index + 1 })
      st.players st.player_sessions hdg hinv rfl
      (by show s.current_question_index ≤ s.current_question_index + 1; omega)
    split
    · obtain ⟨h1, h2⟩ := hstep1
      obtain ⟨h3, h4⟩ := end_game_preserves _ c h1
      exact ⟨h3, fun code i r h => h4 code i r (h2 code i r h)⟩
    · cases hpi : pyIndex s.questions (s.current_question_index + 1) with
      | none => exact hstep1
      | some q =>
        constructor
        · intro c2 s2 hc2 i sd hsd
          by_cases hcc : c2 = c
          · subst hcc
            rw [dictGet_insert_eq] at hc2
            cases hc2
            show i ≤ s.current_question_index + 1
            by_cases hii : i = s.current_question_index + 1
            · subst hii
              exact le_refl _
            · rw [dictGet_insert_ne _ _ _ _ (fun h => hii h.symm)] at hsd
              have := hinv _ s hdg i sd hsd
              omega
          · rw [dictGet_insert_ne _ _ _ _ (fun h => hcc h.symm)] at hc2
            exact hinv c2 s2 hc2 i sd hsd
        · intro code i r hread
          unfold read_shuffle at hread ⊢
          by_cases hcc : code = c
          · subst hcc
            rw [hdg] at hread
            simp only [Option.some_bind] at hread
            rw [dictGet_insert_eq]
            simp only [Option.some_bind]
            have hle := hinv _ s hdg i r hread
            rw [dictGet_insert_ne _ _ _ _ (by omega : (s.current_question_index + 1 : Int) ≠ i)]
            exact hread
          · rw [dictGet_insert_ne _ _ _ _ (fun h => hcc h.symm)]
            exact hread

theorem start_game_core_preserves (st : ServerState) (sid : String) (code? : Option String)
    (hinv : KeysLe st.sessions) :
    KeysLe (start_game_core st sid code?).1.sessions ∧
    ∀ code i r, read_shuffle st code i = some r →
      read_shuffle (start_game_core st sid code?).1 code i = some r := by
  rw [start_game_core]
  cases hm : code?.bind (fun c => (dictGet c st.sessions).map (fun s => (c, s))) with
  | none => exact ⟨hinv, fun _ _ _ h => h⟩
  | some cs =>
    obtain ⟨c, s⟩ := cs
    obtain ⟨-, hc⟩ := bind_session_lookup st code? c s hm
    simp only
    split
    · exact ⟨hinv, fun _ _ _ h => h⟩
    · exact preserves_of_session_update st c s ({ s with state := "playing" })
        st.players st.player_sessions hc hinv rfl (le_refl _)

theorem start_game_preserves (st : ServerState) (sid : String) (code? : Option String)
    (perm : List Nat) (now : ℚ) (hinv : KeysLe st.sessions) :
    KeysLe (start_game st sid code? perm now).1.sessions ∧
    ∀ code i r, read_shuffle st code i = some r →
      read_shuffle (start_game st sid code? perm now).1 code i = some r := by
  obtain ⟨h1, h2⟩ := start_game_core_preserves st sid code? hinv
  simp only [start_game]
  cases hm : (start_game_core st sid code?).2.2 with
  | none => exact ⟨h1, h2⟩
  | some code =>
    obtain ⟨h3, h4⟩ := next_question_preserves (start_game_core st sid code?).1 code perm now h1
    exact ⟨h3, fun code' i r h => h4 code' i r (h2 code' i r h)⟩

theorem show_question_results_state (st : ServerState) (c : String) :
    (show_question_results st c).1 = st := by
  rw [show_question_results]
  cases dictGet c st.sessions with
  | none => rfl
  | some s =>
    simp only
    cases pyIndex s.questions s.current_question_index with
    | none => rfl
    | some q => rfl

theorem submit_answer_preserves (st : ServerState) (sid : String) (ai? : Option Int)
    (now : ℚ) (hinv : KeysLe st.sessions) (res : ServerState × List Emit)
    (hres : submit_answer st sid ai? now = .ok res) :
    KeysLe res.1.sessions ∧
    ∀ code i r, read_shuffle st code i = some r →
      read_shuffle res.1 code i = some r := by
  rw [submit_answer] at hres
  split at hres
  · cases hres
    exact ⟨hinv, fun _ _ _ h => h⟩
  · next ref href =>
    split at hres
    · simp at hres
    · next session hsess =>
      split at hres
      · simp at hres
      · next player hfind =>
        split at hres
        · cases hres
          exact ⟨hinv, fun _ _ _ h => h⟩
        · split at hres
          · simp at hres
          · next t0 hstart =>
            repeat' split at hres
            all_goals first
              | (obtain rfl := Except.ok.inj hres
                 exact preserves_of_session_update st ref.session_id session _
                   st.players st.player_sessions hsess hinv rfl (le_refl _))
              | (simp at hres; done)
              | (cases hpi : pyIndex session.questions session.current_question_index with
                 | none => simp [hpi] at hres
                 | some q =>
                   rw [hpi] at hres
                   simp only [Option.map_some'] at hres
                   first
                     | (obtain rfl := Except.ok.inj hres
                        exact preserves_of_session_update st ref.session_id session _
                          st.players st.player_sessions hsess hinv rfl (le_refl _))
                     | simp at hres)

theorem disconnect_preserves (st : ServerState) (sid : String) (hinv : KeysLe st.sessions) :
    KeysLe (disconnect st sid).sessions ∧
    ∀ code i r, read_shuffle st code i = some r →
      read_shuffle (disconnect st sid) code i = some r := by
  rw [disconnect]
  cases dictGet sid st.players with
  | none => exact ⟨hinv, fun _ _ _ h => h⟩
  | some ref =>
    simp only
    cases hdg : dictGet ref.session_id st.sessions with
    | none => exact ⟨hinv, fun _ _ _ h => h⟩
    | some s =>
      exact preserves_of_session_update st ref.session_id s
        ({ s with
           players := update_player_in_roster ref.name
             (fun p => { p with connected := false }) s.players })
        st.players st.player_sessions hdg hinv rfl (le_refl _)

/-- One step of work preserves the invariant, and preserves every cached
shuffle record of a session it does not re-create. -/
theorem step_preserves (st : ServerState) (inp : Input) (hinv : KeysLe st.sessions) :
    KeysLe (step st inp).1.sessions ∧
    ∀ code i r, inp.createsCode code = false → read_shuffle st code i = some r →
      read_shuffle (step st inp).1 code i = some r := by
  cases inp with
  | create sid code' quiz qs =>
    obtain ⟨h1, h2⟩ := create_session_preserves st sid code' quiz qs hinv
    exact ⟨h1, fun code i r hnc h =>
      h2 code i r (by simpa [Input.createsCode] using hnc) h⟩
  | join sid code? name =>
    obtain ⟨h1, h2⟩ := join_session_preserves st sid code? name hinv
    exact ⟨h1, fun code i r _ h => h2 code i r h⟩
  | start sid code? perm now =>
    obtain ⟨h1, h2⟩ := start_game_preserves st sid code? perm now hinv
    exact ⟨h1, fun code i r _ h => h2 code i r h⟩
  | advance c perm now =>
    obtain ⟨h1, h2⟩ := next_question_preserves st c perm now hinv
    exact ⟨h1, fun code i r _ h => h2 code i r h⟩
  | results c =>
    simp only [step, show_question_results_state]
    exact ⟨hinv, fun _ _ _ _ h => h⟩
  | finish c =>
    obtain ⟨h1, h2⟩ := end_game_preserves st c hinv
    exact ⟨h1, fun code i r _ h => h2 code i r h⟩
  | submit sid ai? now =>
    simp only [step]
    cases hres : submit_answer st sid ai? now with
    | ok res =>
      obtain ⟨h1, h2⟩ := submit_answer_preserves st sid ai? now hinv res hres
      exact ⟨h1, fun code i r _ h => h2 code i r h⟩
    | error e => exact ⟨hinv, fun _ _ _ _ h => h⟩
  | disc sid =>
    obtain ⟨h1, h2⟩ := disconnect_preserves st sid hinv
    exact ⟨h1, fun code i r _ h => h2 code i r h⟩

theorem reach_preserves (t : List Input) :
    ∀ (st : ServerState) (code : String) (i : Int) (r : ShuffleData),
      KeysLe st.sessions →
      (∀ inp ∈ t, inp.createsCode code = false) →
      read_shuffle st code i = some r →
      KeysLe (reach st t).sessions ∧ read_shuffle (reach st t) code i = some r := by
  induction t with
  | nil => exact fun st code i r hinv _ h => ⟨hinv, h⟩
  | cons inp t ih =>
    intro st code i r hinv hnc h
    obtain ⟨h1, h2⟩ := step_preserves st inp hinv
    exact ih (step st inp).1 code i r h1
      (fun j hj => hnc j (List.mem_cons_of_mem _ hj))
      (h2 code i r (hnc inp (List.mem_cons_self _ _)) h)

theorem reach_inv (st : ServerState) (hinv : KeysLe st.sessions) (t : List Input) :
    KeysLe (reach st t).sessions := by
  induction t generalizing st with
  | nil => exact hinv
  | cons inp t ih => exact ih (step st inp).1 (step_preserves st inp hinv).1

/-- C2: once a shuffle record exists for question `i` of the session at
`code` (it is created by the one `next_question` that makes `i` current),
it is never recomputed or overwritten: after any further trace of work
that does not re-create that session code, the cached record every
consumer reads — the late-join snapshot, submission scoring and result
computation all look up `question_shuffles[i]` — is still the same record,
with the same answer order and the same correct index; in particular the
scoring path resolves the same correct index. -/
theorem shuffle_record_stable (t1 t2 : List Input) (code : String) (i : Int)
    (r : ShuffleData)
    (h1 : read_shuffle (reach initState t1) code i = some r)
    (h2 : ∀ inp ∈ t2, inp.createsCode code = false) :
    read_shuffle (reach (reach initState t1) t2) code i = some r ∧
    ∀ s, dictGet code (reach (reach initState t1) t2).sessions = some s →
      dictGet i s.question_shuffles = some r ∧
      leaderboard_correct_index s i = some ((r.correct_index : Int)) := by
  have hinv0 : KeysLe initState.sessions := by
    intro c s h
    simp [initState, dictGet] at h
  have hinv1 := reach_inv initState hinv0 t1
  obtain ⟨hinv2, hread⟩ := reach_preserves t2 (reach initState t1) code i r hinv1 h2 h1
  refine ⟨hread, fun s hs => ?_⟩
  unfold read_shuffle at hread
  rw [hs] at hread
  simp only [Option.some_bind] at hread
  refine ⟨hread, ?_⟩
  rw [leaderboard_correct_index, hread]

/-- Witness for C2: after creating, joining and starting (which presents
question 0 under the permutation `[1, 0]`), a submission, a disconnect and
the advancement to question 1 leave the cached record of question 0
untouched. -/
theorem shuffle_record_stable_witness :
    read_shuffle (reach initState c2t1) "Q1" 0 = some demoShuffle ∧
    (∀ inp ∈ c2t2, inp.createsCode "Q1" = false) ∧
    read_shuffle (reach (reach initState c2t1) c2t2) "Q1" 0 = some demoShuffle :=
  ⟨by decide, by decide,
   (shuffle_record_stable c2t1 c2t2 "Q1" 0 demoShuffle (by decide) (by decide)).1⟩

end Quiz
